import Mathlib

/-!
Verification of the extraction-validation-ingestion pipeline of an
academic-paper knowledge-graph builder.

The development shallowly embeds the TypeScript sources:
* `ValidationAgent` (src/agents/validationAgent.ts): `validateExtraction`,
  `validateConcept`, `validateRelationship`, `isConceptRelevant`,
  `isRelationshipSensible`, `hasSemanticOverlap`;
* `ExtractionAgent` (same file): the parse-boundary coercion/filter layer
  `validateConcepts`, `validateRelationships`, `isEvidenceInPaper`,
  `validateCategory`, `validateRelationshipType` and the confidence
  coercion `Math.min(1, Math.max(0, Number(x) || 0.7))`;
* `PipelineOrchestrator` (src/orchestrator.ts): `processPaper`,
  `processPapersAtScale`, `storeKnowledgeGraph`,
  `prioritizePapersByRelevance`, `calculateRelevanceScore`,
  `isRelevantToGaussianSplatting`;
* `DatabaseClient` (src/database/client.ts, with the table constraints
  of src/database/schema.sql): `findPaperByArxivId`, `insertPaper`,
  `insertConcept`, `linkPaperConcept`, `insertRelationship`.

Strings are modelled as `List Char` (`Str`); JavaScript's
`String.prototype.includes` becomes substring (infix) containment,
`toLowerCase` maps `Char.toLower`, `split(' ')` is `List.splitOn ' '`,
`substring(0, n)` is `List.take n`, and `.length` is list length.
Numbers that the pipeline compares and averages (confidence scores,
failure rates) are modelled as rationals.  External effects (arXiv fetch,
LLM extraction, database writes) are modelled by explicit oracles
(`Env`), an explicit store state (`Store`) and an effect trace
(`Effect`), mirroring the order of operations in the source.
-/

namespace KG

/-- JavaScript strings, modelled as lists of characters. -/
abbrev Str := List Char

/-- Model of `String.prototype.toLowerCase` (characterwise). -/
def jsToLower (s : Str) : Str := s.map Char.toLower

/-- Model of `haystack.includes(needle)`: substring containment. -/
def jsIncludes (s pat : Str) : Bool := decide (pat <:+: s)

theorem jsIncludes_iff (s pat : Str) : jsIncludes s pat = true ↔ pat <:+: s := by
  simp [jsIncludes]

theorem length_jsToLower (s : Str) : (jsToLower s).length = s.length := by
  simp [jsToLower]

/-! ## Data model (src/types.ts, as used by the pipeline code)

Only the fields that the modelled functions read are included. -/

structure Paper where
  arxiv_id : Str
  title : Str
  abstract : Str
deriving DecidableEq, Repr

structure Concept where
  name : Str
  category : Str
  description : Str
  confidence : ℚ
deriving DecidableEq, Repr

structure Relationship where
  relationship_type : Str
  target_concept : Str
  evidence : Str
  confidence : ℚ
deriving DecidableEq, Repr

structure ExtractionResult where
  concepts : List Concept
  relationships : List Relationship
deriving DecidableEq, Repr

structure ValidationResult where
  isValid : Bool
  confidence : ℚ
  issues : List Str
  extraction : ExtractionResult
deriving DecidableEq, Repr

/-- The lowercased `` `${paper.title} ${paper.abstract}` `` used throughout
the sources. -/
def paperContent (p : Paper) : Str := jsToLower (p.title ++ ' ' :: p.abstract)

/-! ## ValidationAgent (src/agents/validationAgent.ts) -/

/-- `hasSemanticOverlap` (validationAgent.ts line 88): some token of the
space-split lowercased concept name, longer than 3 characters, occurs in
the content. -/
def hasSemanticOverlap (concept : Str) (content : Str) : Bool :=
  ((jsToLower concept).splitOn ' ').any
    (fun keyword => keyword.length > 3 && jsIncludes content keyword)

/-- `isConceptRelevant` (validationAgent.ts line 76). -/
def isConceptRelevant (c : Concept) (p : Paper) : Bool :=
  jsIncludes (paperContent p) (jsToLower c.name) || hasSemanticOverlap c.name (paperContent p)

/-- `isRelationshipSensible` (validationAgent.ts line 82). -/
def isRelationshipSensible (r : Relationship) (p : Paper) : Bool :=
  jsIncludes (paperContent p) (jsToLower r.evidence) || (jsToLower r.evidence).length > 20

/-- `validateConcept` (validationAgent.ts line 60). -/
def validateConcept (c : Concept) (p : Paper) : Bool :=
  if c.confidence < 0.4 then false
  else if c.name.length < 2 || c.name.length > 100 then false
  else if !isConceptRelevant c p then false
  else true

/-- `validateRelationship` (validationAgent.ts line 68). -/
def validateRelationship (r : Relationship) (p : Paper) : Bool :=
  if r.confidence < 0.5 then false
  else if r.evidence.length < 10 then false
  else if !isRelationshipSensible r p then false
  else true

/-- Issue string pushed for a rejected concept. -/
def conceptIssue (c : Concept) : Str := "Low-confidence concept: ".toList ++ c.name

/-- Issue string pushed for a rejected relationship. -/
def relationshipIssue (r : Relationship) : Str :=
  "Weak relationship: ".toList ++ r.relationship_type ++ " -> ".toList ++ r.target_concept

/-- The concept loop of `validateExtraction` (validationAgent.ts lines
16-25): accumulates retained concepts, issues, a running confidence sum
and a retained-entity count. -/
def conceptLoop (p : Paper) : List Concept → List Concept × List Str × ℚ × ℕ →
    List Concept × List Str × ℚ × ℕ
  | [], st => st
  | c :: rest, (vc, iss, conf, cnt) =>
    if validateConcept c p then conceptLoop p rest (vc ++ [c], iss, conf + c.confidence, cnt + 1)
    else conceptLoop p rest (vc, iss ++ [conceptIssue c], conf, cnt)

/-- The relationship loop of `validateExtraction` (validationAgent.ts
lines 28-37), continuing from the concept loop's accumulator state. -/
def relationshipLoop (p : Paper) : List Relationship →
    List Relationship × List Str × ℚ × ℕ → List Relationship × List Str × ℚ × ℕ
  | [], st => st
  | r :: rest, (vr, iss, conf, cnt) =>
    if validateRelationship r p then
      relationshipLoop p rest (vr ++ [r], iss, conf + r.confidence, cnt + 1)
    else relationshipLoop p rest (vr, iss ++ [relationshipIssue r], conf, cnt)

/-- `validateExtraction` (validationAgent.ts lines 8-58): filter concepts
and relationships, average the retained confidences (0 when nothing is
retained), and set `isValid` iff some concept was retained and the
average is at least 0.6. -/
def validateExtraction (ex : ExtractionResult) (p : Paper) : ValidationResult :=
  let s1 := conceptLoop p ex.concepts ([], [], 0, 0)
  let s2 := relationshipLoop p ex.relationships ([], s1.2.1, s1.2.2.1, s1.2.2.2)
  let overallConfidence : ℚ := if s2.2.2.2 > 0 then s2.2.2.1 / (s2.2.2.2 : ℚ) else 0
  { isValid := decide (0 < s1.1.length) && decide ((0.6 : ℚ) ≤ overallConfidence)
    confidence := overallConfidence
    issues := s2.2.1
    extraction := { concepts := s1.1, relationships := s2.1 } }

/-! ## Characterization of the validation loops -/

theorem conceptLoop_spec (p : Paper) :
    ∀ (cs : List Concept) (vc : List Concept) (iss : List Str) (conf : ℚ) (cnt : ℕ),
      conceptLoop p cs (vc, iss, conf, cnt) =
        (vc ++ cs.filter (fun c => validateConcept c p),
          iss ++ (cs.filter (fun c => !validateConcept c p)).map conceptIssue,
          conf + ((cs.filter (fun c => validateConcept c p)).map Concept.confidence).sum,
          cnt + (cs.filter (fun c => validateConcept c p)).length) := by
  intro cs
  induction cs with
  | nil => intro vc iss conf cnt; simp [conceptLoop]
  | cons c rest ih =>
    intro vc iss conf cnt
    by_cases h : validateConcept c p
    · simp [conceptLoop, h, ih, add_assoc, add_comm, add_left_comm]
    · simp [conceptLoop, h, ih]

theorem relationshipLoop_spec (p : Paper) :
    ∀ (rs : List Relationship) (vr : List Relationship) (iss : List Str) (conf : ℚ) (cnt : ℕ),
      relationshipLoop p rs (vr, iss, conf, cnt) =
        (vr ++ rs.filter (fun r => validateRelationship r p),
          iss ++ (rs.filter (fun r => !validateRelationship r p)).map relationshipIssue,
          conf + ((rs.filter (fun r => validateRelationship r p)).map Relationship.confidence).sum,
          cnt + (rs.filter (fun r => validateRelationship r p)).length) := by
  intro rs
  induction rs with
  | nil => intro vr iss conf cnt; simp [relationshipLoop]
  | cons r rest ih =>
    intro vr iss conf cnt
    by_cases h : validateRelationship r p
    · simp [relationshipLoop, h, ih, add_assoc, add_comm, add_left_comm]
    · simp [relationshipLoop, h, ih]

/-! ## C1 -/

/-- C1: every concept retained by the validator has confidence at least
0.4, a name of length between 2 and 100 inclusive, and a relevance
signal against the paper text: its lowercased name occurs in the
lowercased title+abstract, or some space-separated token of the
lowercased name longer than 3 characters occurs there. -/
theorem C1_concept_validation (c : Concept) (p : Paper)
    (h : validateConcept c p = true) :
    (0.4 : ℚ) ≤ c.confidence ∧ 2 ≤ c.name.length ∧ c.name.length ≤ 100 ∧
      (jsToLower c.name <:+: paperContent p ∨
        ∃ tok ∈ (jsToLower c.name).splitOn ' ', 3 < tok.length ∧ tok <:+: paperContent p) := by
  unfold validateConcept at h
  split_ifs at h with h1 h2 h3
  simp only [Bool.or_eq_true, decide_eq_true_iff, not_or, not_lt, gt_iff_lt] at h2
  refine ⟨not_lt.mp h1, ?_, ?_, ?_⟩
  · have := h2.1; omega
  · have := h2.2; omega
  · have hrel : isConceptRelevant c p = true := by
      revert h3; cases isConceptRelevant c p <;> simp
    have hrel' : jsIncludes (paperContent p) (jsToLower c.name) = true ∨
        hasSemanticOverlap c.name (paperContent p) = true := by
      simpa [isConceptRelevant] using hrel
    rcases hrel' with hsub | hov
    · exact Or.inl ((jsIncludes_iff _ _).mp hsub)
    · rcases List.any_eq_true.mp hov with ⟨tok, htok, hprop⟩
      simp only [Bool.and_eq_true, decide_eq_true_iff, gt_iff_lt] at hprop
      exact Or.inr ⟨tok, htok, hprop.1, (jsIncludes_iff _ _).mp hprop.2⟩

/-- Witness for C1 on a concrete input. -/
theorem C1_concept_validation_witness :
    (0.4 : ℚ) ≤ (0.9 : ℚ) ∧
      2 ≤ ("Gaussian Splatting".toList : Str).length ∧
      ("Gaussian Splatting".toList : Str).length ≤ 100 ∧
      (jsToLower "Gaussian Splatting".toList <:+:
          paperContent ⟨"2308.04079".toList, "3D Gaussian Splatting".toList,
            "for Real-Time Radiance Field Rendering".toList⟩ ∨
        ∃ tok ∈ (jsToLower "Gaussian Splatting".toList).splitOn ' ', 3 < tok.length ∧
          tok <:+: paperContent ⟨"2308.04079".toList, "3D Gaussian Splatting".toList,
            "for Real-Time Radiance Field Rendering".toList⟩) :=
  C1_concept_validation
    ⟨"Gaussian Splatting".toList, "method".toList, "splatting".toList, 0.9⟩
    ⟨"2308.04079".toList, "3D Gaussian Splatting".toList,
      "for Real-Time Radiance Field Rendering".toList⟩
    (by norm_num +decide [validateConcept, isConceptRelevant, paperContent])

/-! ## C2 -/

/-- C2: every relationship retained by the validator has confidence at
least 0.5, evidence at least 10 characters long, and either its
lowercased evidence occurs in the lowercased title+abstract or the
evidence is longer than 20 characters. -/
theorem C2_relationship_validation (r : Relationship) (p : Paper)
    (h : validateRelationship r p = true) :
    (0.5 : ℚ) ≤ r.confidence ∧ 10 ≤ r.evidence.length ∧
      (jsToLower r.evidence <:+: paperContent p ∨ 20 < r.evidence.length) := by
  unfold validateRelationship at h
  split_ifs at h with h1 h2 h3
  refine ⟨not_lt.mp h1, by omega, ?_⟩
  have hsen : isRelationshipSensible r p = true := by
    revert h3; cases isRelationshipSensible r p <;> simp
  have hsen' : jsIncludes (paperContent p) (jsToLower r.evidence) = true ∨
      20 < (jsToLower r.evidence).length := by
    simpa [isRelationshipSensible] using hsen
  rcases hsen' with hsub | hlong
  · exact Or.inl ((jsIncludes_iff _ _).mp hsub)
  · exact Or.inr (by simpa [length_jsToLower] using hlong)

/-- Witness for C2 on a concrete input. -/
theorem C2_relationship_validation_witness :
    (0.5 : ℚ) ≤ (0.8 : ℚ) ∧
      10 ≤ ("real-time radiance field".toList : Str).length ∧
      (jsToLower "real-time radiance field".toList <:+:
          paperContent ⟨"2308.04079".toList, "3D Gaussian Splatting".toList,
            "for Real-Time Radiance Field Rendering".toList⟩ ∨
        20 < ("real-time radiance field".toList : Str).length) :=
  C2_relationship_validation
    ⟨"uses".toList, "radiance field".toList, "real-time radiance field".toList, 0.8⟩
    ⟨"2308.04079".toList, "3D Gaussian Splatting".toList,
      "for Real-Time Radiance Field Rendering".toList⟩
    (by norm_num +decide [validateRelationship, isRelationshipSensible, paperContent])

/-! ## C3 -/

/-- The seminal paper used as a concrete test fixture. -/
def paperC3 : Paper :=
  ⟨"2308.04079".toList, "3D Gaussian Splatting".toList,
    "for Real-Time Radiance Field Rendering".toList⟩

/-- Synthetic concept with confidence 0.9 that passes the name-length and
relevance checks against `paperC3`. -/
def conceptC3hi : Concept :=
  ⟨"Gaussian Splatting".toList, "method".toList, "core method".toList, 0.9⟩

/-- Synthetic concept with confidence 0.3 (fails only the 0.4 floor). -/
def conceptC3lo : Concept :=
  ⟨"Radiance Field".toList, "technique".toList, "scene representation".toList, 0.3⟩

/-- Synthetic extraction of two concepts (0.9 and 0.3) and no
relationships. -/
def exC3 : ExtractionResult := ⟨[conceptC3hi, conceptC3lo], []⟩

/-- C3: the aggregate confidence returned by `validateExtraction` is the
arithmetic mean of the confidences of all retained concepts and
relationships combined (0 when nothing is retained), and `isValid` holds
exactly when at least one concept is retained and that mean is at least
0.6; on the synthetic extraction of two concepts with confidences 0.9
and 0.3 and no relationships the aggregate is 0.9 and the result is
valid, only the 0.9 concept surviving. -/
theorem C3_aggregate_confidence :
    (∀ (ex : ExtractionResult) (p : Paper),
      ((validateExtraction ex p).confidence =
        if (ex.concepts.filter (fun c => validateConcept c p)).length +
            (ex.relationships.filter (fun r => validateRelationship r p)).length = 0 then 0
        else (((ex.concepts.filter (fun c => validateConcept c p)).map Concept.confidence).sum +
              ((ex.relationships.filter (fun r => validateRelationship r p)).map
                Relationship.confidence).sum) /
          (((ex.concepts.filter (fun c => validateConcept c p)).length +
            (ex.relationships.filter (fun r => validateRelationship r p)).length : ℕ) : ℚ)) ∧
      ((validateExtraction ex p).isValid = true ↔
        ex.concepts.filter (fun c => validateConcept c p) ≠ [] ∧
          (0.6 : ℚ) ≤ (validateExtraction ex p).confidence)) ∧
    (validateExtraction exC3 paperC3).confidence = 0.9 ∧
    (validateExtraction exC3 paperC3).isValid = true ∧
    (validateExtraction exC3 paperC3).extraction.concepts = [conceptC3hi] ∧
    (validateExtraction exC3 paperC3).extraction.relationships = [] := by
  refine ⟨fun ex p => ⟨?_, ?_⟩, ?_, ?_, ?_, ?_⟩
  · simp only [validateExtraction, conceptLoop_spec, relationshipLoop_spec, List.nil_append,
      zero_add, gt_iff_lt]
    by_cases hn : (ex.concepts.filter (fun c => validateConcept c p)).length +
        (ex.relationships.filter (fun r => validateRelationship r p)).length = 0
    · simp [hn]
    · simp [hn, Nat.pos_of_ne_zero hn]
  · simp only [validateExtraction, conceptLoop_spec, relationshipLoop_spec, List.nil_append,
      zero_add, Bool.and_eq_true, decide_eq_true_iff, List.length_pos]
  · norm_num +decide [validateExtraction, conceptLoop, relationshipLoop, validateConcept,
      validateRelationship, isConceptRelevant, paperContent, paperC3, conceptC3hi,
      conceptC3lo, exC3]
  · norm_num +decide [validateExtraction, conceptLoop, relationshipLoop, validateConcept,
      validateRelationship, isConceptRelevant, paperContent, paperC3, conceptC3hi,
      conceptC3lo, exC3]
  · norm_num +decide [validateExtraction, conceptLoop, relationshipLoop, validateConcept,
      validateRelationship, isConceptRelevant, paperContent, paperC3, conceptC3hi,
      conceptC3lo, exC3]
  · norm_num +decide [validateExtraction, conceptLoop, relationshipLoop, validateConcept,
      validateRelationship, isConceptRelevant, paperContent, paperC3, conceptC3hi,
      conceptC3lo, exC3]

/-! ## ExtractionAgent parse boundary (validationAgent.ts lines 316-416) -/

/-- Model of `String.prototype.trim`. -/
def jsTrim (s : Str) : Str :=
  ((s.dropWhile Char.isWhitespace).reverse.dropWhile Char.isWhitespace).reverse

/-- JavaScript truthiness of an optional string field: present and
non-empty. -/
def truthyStr : Option Str → Bool
  | some s => !s.isEmpty
  | none => false

/-- The raw `confidence` field of a parsed JSON entity, after
`Number(...)`: either a numeric value or `NaN` (absent or
non-numeric). -/
inductive RawConf where
  | num (x : ℚ)
  | nonNumeric
deriving DecidableEq, Repr

/-- The parse-boundary confidence coercion
`Math.min(1, Math.max(0, Number(x) || 0.7))` (validationAgent.ts lines
353 and 398).  JavaScript's `||` replaces a falsy left operand — `NaN`
(absent/non-numeric field) but also numeric `0` — with the default
0.7. -/
def coerceConfidence : RawConf → ℚ
  | .num x => min 1 (max 0 (if x = 0 then 0.7 else x))
  | .nonNumeric => min 1 (max 0 0.7)

/-- A concept as parsed from the LLM JSON, fields possibly absent. -/
structure RawConcept where
  name : Option Str
  category : Option Str
  description : Option Str
  confidence : RawConf
deriving DecidableEq, Repr

/-- A relationship as parsed from the LLM JSON. -/
structure RawRel where
  relationship_type : Option Str
  target_concept : Option Str
  evidence : Option Str
  confidence : RawConf
deriving DecidableEq, Repr

/-- The closed category set (validationAgent.ts line 404). -/
def validCategories : List Str :=
  ["method", "technique", "problem", "domain", "application", "framework"].map String.toList

/-- `validateCategory` (validationAgent.ts line 403). -/
def validateCategory (category : Str) : Str :=
  if validCategories.contains (jsToLower category) then jsToLower category
  else "technique".toList

/-- The closed relationship-type set (validationAgent.ts line 409). -/
def validRelationshipTypes : List Str :=
  ["introduces", "extends", "improves_on", "evaluates", "uses", "compares",
    "applies"].map String.toList

/-- `validateRelationshipType` (validationAgent.ts line 408). -/
def validateRelationshipType (t : Str) : Str :=
  if validRelationshipTypes.contains (jsToLower t) then jsToLower t else "uses".toList

/-- The per-concept coercion in `validateConcepts`' `.map` (lines
349-354). -/
def coerceConcept (c : RawConcept) : Concept :=
  { name := jsTrim (c.name.getD [])
    category := validateCategory (c.category.getD [])
    description := jsTrim (c.description.getD [])
    confidence := coerceConfidence c.confidence }

/-- `validateConcepts` (validationAgent.ts lines 346-356): drop entities
missing required fields, coerce, drop names of length at most 1. -/
def validateConcepts (concepts : List RawConcept) : List Concept :=
  ((concepts.filter (fun c =>
      truthyStr c.name && truthyStr c.category && truthyStr c.description)).map
    coerceConcept).filter (fun c => c.name.length > 1)

/-- `isEvidenceInPaper` (validationAgent.ts lines 413-416): the first 20
characters of the lowercased evidence occur in the lowercased
title+abstract.  Note there is no length fallback here. -/
def isEvidenceInPaper (evidence : Str) (p : Paper) : Bool :=
  jsIncludes (paperContent p) ((jsToLower evidence).take 20)

/-- The per-relationship coercion in `validateRelationships`' `.map`
(lines 394-399). -/
def coerceRelationship (r : RawRel) : Relationship :=
  { relationship_type := validateRelationshipType (r.relationship_type.getD [])
    target_concept := jsTrim (r.target_concept.getD [])
    evidence := jsTrim (r.evidence.getD [])
    confidence := coerceConfidence r.confidence }

/-- `validateRelationships` (validationAgent.ts lines 391-401): drop
entities missing required fields, coerce, keep only those whose evidence
passes `isEvidenceInPaper`. -/
def validateRelationships (rels : List RawRel) (p : Paper) : List Relationship :=
  ((rels.filter (fun r =>
      truthyStr r.relationship_type && truthyStr r.target_concept &&
        truthyStr r.evidence)).map coerceRelationship).filter
    (fun r => isEvidenceInPaper r.evidence p)

/-! ## C4 -/

/-- Fixture paper whose text does not contain the fabricated evidence. -/
def paperC4 : Paper :=
  ⟨"9999.00001".toList, "A short title".toList, "tiny abstract".toList⟩

/-- Fixture relationship with all required fields and evidence longer
than 20 characters that does not occur in `paperC4`'s text. -/
def rawRelC4 : RawRel :=
  ⟨some "uses".toList, some "gaussian splatting".toList,
    some "completely fabricated evidence string".toList, RawConf.num 0.9⟩

/-- C4 counterexample: the claim predicts that a field-complete
relationship whose evidence is longer than 20 characters is retained by
the parse-time filter even when its first 20 characters do not occur in
the paper text; the code drops it (`isEvidenceInPaper` has no length
fallback). -/
theorem C4_counterexample :
    validateRelationships [rawRelC4] paperC4 = [] ∧
    (truthyStr rawRelC4.relationship_type && truthyStr rawRelC4.target_concept &&
      truthyStr rawRelC4.evidence) = true ∧
    20 < (coerceRelationship rawRelC4).evidence.length := by
  refine ⟨?_, by decide, by decide⟩
  norm_num +decide [validateRelationships, coerceRelationship, rawRelC4, paperC4,
    isEvidenceInPaper, truthyStr, jsTrim, jsToLower, paperContent, jsIncludes]

/-- C4 amended: a relationship parsed from the LLM response with all
required fields is retained by the extractor's parse-time filter exactly
when the first 20 characters of its lowercased (trimmed) evidence occur
as a substring of the lowercased title+abstract; there is no
length-over-20 fallback at this boundary. -/
theorem C4_parse_evidence_filter (rels : List RawRel) (p : Paper) (r : Relationship) :
    r ∈ validateRelationships rels p ↔
      ∃ raw ∈ rels,
        (truthyStr raw.relationship_type && truthyStr raw.target_concept &&
          truthyStr raw.evidence) = true ∧
        r = coerceRelationship raw ∧
        (jsToLower r.evidence).take 20 <:+: paperContent p := by
  constructor
  · intro hr
    rcases List.mem_filter.mp hr with ⟨hmem, hpred⟩
    rcases List.mem_map.mp hmem with ⟨raw, hraw, hfr⟩
    rcases List.mem_filter.mp hraw with ⟨hrawmem, hq⟩
    exact ⟨raw, hrawmem, hq, hfr.symm,
      by simpa [isEvidenceInPaper, jsIncludes_iff] using hpred⟩
  · rintro ⟨raw, hrawmem, hq, rfl, hinf⟩
    exact List.mem_filter.mpr
      ⟨List.mem_map.mpr ⟨raw, List.mem_filter.mpr ⟨hrawmem, hq⟩, rfl⟩,
        by simpa [isEvidenceInPaper, jsIncludes_iff] using hinf⟩

/-! ## C5 -/

/-- Fixture concept whose raw confidence field holds the numeric value
0. -/
def rawConceptC5 : RawConcept :=
  ⟨some "Gaussian Splatting".toList, some "method".toList, some "desc".toList,
    RawConf.num 0⟩

/-- C5 counterexample: a parsed concept whose raw confidence field holds
the numeric value 0 is given the default confidence 0.7 — not the
claimed clamp of 0 into [0,1], which is 0. -/
theorem C5_counterexample :
    validateConcepts [rawConceptC5] =
      [⟨"Gaussian Splatting".toList, "method".toList, "desc".toList, 0.7⟩] ∧
    min (1 : ℚ) (max 0 0) = 0 ∧ (0.7 : ℚ) ≠ 0 := by
  refine ⟨?_, by norm_num, by norm_num⟩
  norm_num +decide [validateConcepts, coerceConcept, rawConceptC5, coerceConfidence,
    validateCategory, validCategories, jsTrim, truthyStr, jsToLower, min_def, max_def]

/-- Fixture concept with a nonzero numeric raw confidence. -/
def rawConceptC5b : RawConcept :=
  ⟨some "Gaussian Splatting".toList, some "method".toList, some "desc".toList,
    RawConf.num 0.9⟩

/-- The coerced form of `rawConceptC5b`. -/
def conceptC5b : Concept :=
  ⟨"Gaussian Splatting".toList, "method".toList, "desc".toList, 0.9⟩

/-- C5 amended: the coerced confidence equals the raw numeric value
clamped into [0,1] whenever that value is nonzero; the default 0.7 is
used when the field is absent/non-numeric and also when it holds numeric
0 (the `||` default captures falsy 0).  Every concept or relationship
surviving the parse boundary carries the coercion of some raw entity's
confidence field. -/
theorem C5_confidence_coercion :
    (∀ x : ℚ, x ≠ 0 → coerceConfidence (RawConf.num x) = min 1 (max 0 x)) ∧
    coerceConfidence (RawConf.num 0) = 0.7 ∧
    coerceConfidence RawConf.nonNumeric = 0.7 ∧
    (∀ (rawcs : List RawConcept) (c : Concept), c ∈ validateConcepts rawcs →
      ∃ raw ∈ rawcs, c.confidence = coerceConfidence raw.confidence) ∧
    (∀ (rawrs : List RawRel) (p : Paper) (r : Relationship),
      r ∈ validateRelationships rawrs p →
      ∃ raw ∈ rawrs, r.confidence = coerceConfidence raw.confidence) := by
  refine ⟨fun x hx => by simp [coerceConfidence, hx],
    by norm_num [coerceConfidence, min_def, max_def],
    by norm_num [coerceConfidence, min_def, max_def], ?_, ?_⟩
  · intro rawcs c hc
    rcases List.mem_filter.mp hc with ⟨hmem, _⟩
    rcases List.mem_map.mp hmem with ⟨raw, hraw, hfr⟩
    exact ⟨raw, (List.mem_filter.mp hraw).1, by rw [← hfr]; rfl⟩
  · intro rawrs p r hr
    rcases List.mem_filter.mp hr with ⟨hmem, _⟩
    rcases List.mem_map.mp hmem with ⟨raw, hraw, hfr⟩
    exact ⟨raw, (List.mem_filter.mp hraw).1, by rw [← hfr]; rfl⟩

/-- Witness for C5 (amended) on concrete inputs. -/
theorem C5_confidence_coercion_witness :
    coerceConfidence (RawConf.num 0.9) = min 1 (max 0 0.9) ∧
    (∃ raw ∈ [rawConceptC5b], conceptC5b.confidence = coerceConfidence raw.confidence) :=
  ⟨C5_confidence_coercion.1 0.9 (by norm_num),
    C5_confidence_coercion.2.2.2.1 [rawConceptC5b] conceptC5b
      (by norm_num +decide [validateConcepts, coerceConcept, rawConceptC5b, conceptC5b,
        coerceConfidence, validateCategory, validCategories, jsTrim, truthyStr,
        jsToLower, min_def, max_def])⟩

/-! ## PipelineOrchestrator (src/orchestrator.ts) and the store client
(src/database/client.ts with src/database/schema.sql)

The store client's operations — `findPaperByArxivId`, `insertPaper`,
`insertConcept`, `linkPaperConcept`, `insertRelationship` — are embedded
from their code: row ids are generated by the database (modelled by the
store's fresh-id counter), `papers.arxiv_id` and `concepts.name` are
UNIQUE per the schema, and every operation can throw, which
`processPaper`'s outer catch (and, for the entity writes, the per-entity
catches inside `storeKnowledgeGraph`) absorbs.  Failures whose cause
lives outside the modelled state — connection errors and constraint
details beyond the modelled UNIQUE columns — are oracle branches in
`DbOracle`; fetch and LLM extraction are oracles in `Env`.  Every
externally visible operation performed by `processPaper` is recorded in
an effect trace. -/

/-- A discovery candidate (ArxivPaper in src/types.ts); only the fields
read by the orchestrator are included. -/
structure ArxivPaper where
  arxiv_id : Str
  title : Str
  abstract : Str
deriving DecidableEq, Repr

/-- `isRelevantToGaussianSplatting` (orchestrator.ts lines 288-292). -/
def isRelevantToGaussianSplatting (p : Paper) : Bool :=
  (["gaussian", "splatting", "3dgs", "radiance field",
      "novel view synthesis"].map String.toList).any
    (fun keyword => jsIncludes (paperContent p) keyword)

/-- Externally visible operations attempted during one `processPaper`
run.  Store writes carry the entity being written; `linkPaperConcept`
additionally records the concept row id returned by the upsert. -/
inductive Effect where
  | fetch (id : Str)
  | insertPaperRow (p : Paper)
  | extract (id : Str)
  | validate (id : Str)
  | upsertConcept (c : Concept)
  | linkPaperConcept (paperId : ℕ) (c : Concept) (conceptId : ℕ) (conf : ℚ)
  | insertRelationshipRow (paperId : ℕ) (r : Relationship)
  | crossRef (paperId : ℕ)
deriving DecidableEq, Repr

/-- The graph store's state (schema.sql): paper rows and concept rows
keyed by database-generated ids (modelled by the `nextId` counter),
paper-concept link rows `(paper_id, concept_id, relationship,
confidence)` and relationship rows anchored to a source paper row. -/
structure Store where
  nextId : ℕ
  papers : List (ℕ × Paper)
  concepts : List (ℕ × Concept)
  links : List (ℕ × ℕ × Str × ℚ)
  rels : List (ℕ × Relationship)
deriving DecidableEq, Repr

def emptyStore : Store := ⟨0, [], [], [], []⟩

/-- Which store operations fail for causes outside the modelled state:
connection errors, and for the entity writes any constraint violation
beyond the modelled UNIQUE columns.  `DatabaseClient` turns every such
error into a thrown exception. -/
structure DbOracle where
  findFails : Str → Bool
  insertPaperFails : Paper → Bool
  insertConceptFails : Concept → Bool
  linkFails : ℕ → ℕ → Bool
  insertRelFails : ℕ → Relationship → Bool

/-- The always-healthy database. -/
def noFailOracle : DbOracle :=
  ⟨fun _ => false, fun _ => false, fun _ => false, fun _ _ => false, fun _ _ => false⟩

/-- `DatabaseClient.findPaperByArxivId` (client.ts lines 313-328):
select by `arxiv_id` (UNIQUE, so at most one row), null when no row
matches (PGRST116), and a thrown error on any other failure. -/
def findPaperByArxivId (o : DbOracle) (db : Store) (arxivId : Str) :
    Except Unit (Option Paper) :=
  if o.findFails arxivId then Except.error ()
  else Except.ok ((db.papers.find? (fun r => r.2.arxiv_id == arxivId)).map (fun r => r.2))

/-- `DatabaseClient.insertPaper` (client.ts lines 330-350): insert the
row and return the database-generated id `data.id` (not the arxiv id);
throws on failure, in particular on a `papers.arxiv_id` UNIQUE
violation. -/
def insertPaper (o : DbOracle) (db : Store) (p : Paper) : Except Unit (ℕ × Store) :=
  if o.insertPaperFails p then Except.error ()
  else if db.papers.any (fun r => r.2.arxiv_id == p.arxiv_id) then Except.error ()
  else Except.ok (db.nextId,
    { db with nextId := db.nextId + 1, papers := db.papers ++ [(db.nextId, p)] })

/-- `DatabaseClient.insertConcept` (client.ts lines 351-381): select an
existing row by (name, category) and return its id when found (the
select's own error is discarded by the code); otherwise insert, which
throws on failure — in particular a `concepts.name` UNIQUE violation
when a row with the same name but different category already exists —
and return the generated id. -/
def insertConcept (o : DbOracle) (db : Store) (c : Concept) : Except Unit (ℕ × Store) :=
  match db.concepts.find? (fun r => r.2.name == c.name && r.2.category == c.category) with
  | some r => Except.ok (r.1, db)
  | none =>
    if o.insertConceptFails c then Except.error ()
    else if db.concepts.any (fun r => r.2.name == c.name) then Except.error ()
    else Except.ok (db.nextId,
      { db with nextId := db.nextId + 1, concepts := db.concepts ++ [(db.nextId, c)] })

/-- `DatabaseClient.linkPaperConcept` (client.ts lines 383-396): insert
a `(paper_id, concept_id, relationship, confidence)` row; throws on
failure. -/
def linkPaperConcept (o : DbOracle) (db : Store) (paperId conceptId : ℕ)
    (relName : Str) (conf : ℚ) : Except Unit Store :=
  if o.linkFails paperId conceptId then Except.error ()
  else Except.ok { db with links := db.links ++ [(paperId, conceptId, relName, conf)] }

/-- `DatabaseClient.insertRelationship` (client.ts lines 398-414):
insert a relationship row anchored to the source paper row; throws on
failure. -/
def insertRelationship (o : DbOracle) (db : Store) (paperId : ℕ) (r : Relationship) :
    Except Unit Store :=
  if o.insertRelFails paperId r then Except.error ()
  else Except.ok { db with rels := db.rels ++ [(paperId, r)] }

/-- The concept loop of `storeKnowledgeGraph` (orchestrator.ts lines
346-358): for each concept with confidence at least 0.7, upsert it and
link it to the paper with relationship "mentions"; a throwing write is
caught per entity (logged and skipped), so a failing upsert skips the
link and a failing link leaves the upsert's row in place. -/
def storeConceptsLoop (o : DbOracle) (pid : ℕ) : List Concept → Store → Store × List Effect
  | [], db => (db, [])
  | c :: rest, db =>
    if (0.7 : ℚ) ≤ c.confidence then
      match insertConcept o db c with
      | Except.error _ =>
        let s := storeConceptsLoop o pid rest db
        (s.1, Effect.upsertConcept c :: s.2)
      | Except.ok (cid, db1) =>
        match linkPaperConcept o db1 pid cid "mentions".toList c.confidence with
        | Except.error _ =>
          let s := storeConceptsLoop o pid rest db1
          (s.1, Effect.upsertConcept c ::
            Effect.linkPaperConcept pid c cid c.confidence :: s.2)
        | Except.ok db2 =>
          let s := storeConceptsLoop o pid rest db2
          (s.1, Effect.upsertConcept c ::
            Effect.linkPaperConcept pid c cid c.confidence :: s.2)
    else storeConceptsLoop o pid rest db

/-- The relationship loop of `storeKnowledgeGraph` (orchestrator.ts
lines 361-372): insert only relationships with confidence at least 0.7,
catching a throwing insert per entity. -/
def storeRelationshipsLoop (o : DbOracle) (pid : ℕ) :
    List Relationship → Store → Store × List Effect
  | [], db => (db, [])
  | r :: rest, db =>
    if (0.7 : ℚ) ≤ r.confidence then
      match insertRelationship o db pid r with
      | Except.error _ =>
        let s := storeRelationshipsLoop o pid rest db
        (s.1, Effect.insertRelationshipRow pid r :: s.2)
      | Except.ok db1 =>
        let s := storeRelationshipsLoop o pid rest db1
        (s.1, Effect.insertRelationshipRow pid r :: s.2)
    else storeRelationshipsLoop o pid rest db

/-- `storeKnowledgeGraph` (orchestrator.ts lines 340-375). -/
def storeKnowledgeGraph (o : DbOracle) (db : Store) (pid : ℕ) (ex : ExtractionResult) :
    Store × List Effect :=
  let s1 := storeConceptsLoop o pid ex.concepts db
  let s2 := storeRelationshipsLoop o pid ex.relationships s1.1
  (s2.1, s1.2 ++ s2.2)

/-- Oracles for `processPaper`'s collaborators: the arXiv fetch, the
LLM extraction, and the database's failure behavior. -/
structure Env where
  fetchPaper : Str → Except Unit Paper
  extractEntities : Paper → Except Unit ExtractionResult
  oracle : DbOracle

/-- The body of `processPaper`'s `try` block (orchestrator.ts lines
42-87): duplicate check, fetch, relevance gate, paper insert,
extraction, validation, storage, cross-reference.  A failing store
read/write outside `storeKnowledgeGraph`, a failing fetch or a failing
extraction surfaces as `Except.error`. -/
def processPaperTry (env : Env) (db : Store) (arxivId : Str) :
    Except Unit Bool × Store × List Effect :=
  match findPaperByArxivId env.oracle db arxivId with
  | Except.error e => (Except.error e, db, [])
  | Except.ok (some _) => (Except.ok true, db, [])
  | Except.ok none =>
    match env.fetchPaper arxivId with
    | Except.error e => (Except.error e, db, [Effect.fetch arxivId])
    | Except.ok paper =>
      if !isRelevantToGaussianSplatting paper then
        (Except.ok false, db, [Effect.fetch arxivId])
      else
        match insertPaper env.oracle db paper with
        | Except.error e =>
          (Except.error e, db, [Effect.fetch arxivId, Effect.insertPaperRow paper])
        | Except.ok ins =>
          match env.extractEntities paper with
          | Except.error e =>
            (Except.error e, ins.2,
              [Effect.fetch arxivId, Effect.insertPaperRow paper, Effect.extract arxivId])
          | Except.ok extraction =>
            let validated := validateExtraction extraction paper
            let st := storeKnowledgeGraph env.oracle ins.2 ins.1 validated.extraction
            (Except.ok true, st.1,
              [Effect.fetch arxivId, Effect.insertPaperRow paper, Effect.extract arxivId,
                Effect.validate arxivId] ++ st.2 ++ [Effect.crossRef ins.1])

/-- `processPaper` (orchestrator.ts lines 39-92): the surrounding
`catch` converts any error raised inside the `try` block into a `false`
return (lines 88-91). -/
def processPaper (env : Env) (db : Store) (arxivId : Str) : Bool × Store × List Effect :=
  match processPaperTry env db arxivId with
  | (Except.ok b, db2, effs) => (b, db2, effs)
  | (Except.error _, db2, effs) => (false, db2, effs)

/-! ### Store-preservation lemmas -/

theorem papers_insertPaper (o : DbOracle) (db : Store) (p : Paper) :
    ∀ ins, insertPaper o db p = Except.ok ins →
      ins.2.papers = db.papers ++ [(db.nextId, p)] := by
  intro ins h
  unfold insertPaper at h
  split_ifs at h
  injection h with h
  rw [← h]

theorem papers_insertConcept (o : DbOracle) (db : Store) (c : Concept) :
    ∀ res, insertConcept o db c = Except.ok res → res.2.papers = db.papers := by
  intro res h
  unfold insertConcept at h
  split at h
  · injection h with h; rw [← h]
  · split_ifs at h
    injection h with h
    rw [← h]

theorem papers_linkPaperConcept (o : DbOracle) (db : Store) (paperId conceptId : ℕ)
    (relName : Str) (conf : ℚ) :
    ∀ db2, linkPaperConcept o db paperId conceptId relName conf = Except.ok db2 →
      db2.papers = db.papers := by
  intro db2 h
  unfold linkPaperConcept at h
  split_ifs at h
  injection h with h
  rw [← h]

theorem papers_insertRelationship (o : DbOracle) (db : Store) (paperId : ℕ)
    (r : Relationship) :
    ∀ db2, insertRelationship o db paperId r = Except.ok db2 → db2.papers = db.papers := by
  intro db2 h
  unfold insertRelationship at h
  split_ifs at h
  injection h with h
  rw [← h]

theorem papers_storeConceptsLoop (o : DbOracle) (pid : ℕ) :
    ∀ (cs : List Concept) (db : Store),
      (storeConceptsLoop o pid cs db).1.papers = db.papers := by
  intro cs
  induction cs with
  | nil => intro db; simp [storeConceptsLoop]
  | cons c rest ih =>
    intro db
    by_cases h : (0.7 : ℚ) ≤ c.confidence
    · rcases hic : insertConcept o db c with e | ⟨cid, db1⟩
      · simp [storeConceptsLoop, h, hic, ih]
      · have h1 := papers_insertConcept o db c (cid, db1) hic
        rcases hlk : linkPaperConcept o db1 pid cid "mentions".toList c.confidence
            with e | db2
        · simp only [storeConceptsLoop, if_pos h, hic, hlk]
          simpa [ih] using h1
        · have h2 := papers_linkPaperConcept o db1 pid cid "mentions".toList
            c.confidence db2 hlk
          simp only [storeConceptsLoop, if_pos h, hic, hlk]
          simp [ih, h2]
          simpa using h1
    · simp [storeConceptsLoop, h, ih]

theorem papers_storeRelationshipsLoop (o : DbOracle) (pid : ℕ) :
    ∀ (rs : List Relationship) (db : Store),
      (storeRelationshipsLoop o pid rs db).1.papers = db.papers := by
  intro rs
  induction rs with
  | nil => intro db; simp [storeRelationshipsLoop]
  | cons r rest ih =>
    intro db
    by_cases h : (0.7 : ℚ) ≤ r.confidence
    · rcases hir : insertRelationship o db pid r with e | db1
      · simp [storeRelationshipsLoop, h, hir, ih]
      · have h1 := papers_insertRelationship o db pid r db1 hir
        simp [storeRelationshipsLoop, h, hir, ih, h1]
    · simp [storeRelationshipsLoop, h, ih]

theorem papers_storeKnowledgeGraph (o : DbOracle) (db : Store) (pid : ℕ)
    (ex : ExtractionResult) :
    (storeKnowledgeGraph o db pid ex).1.papers = db.papers := by
  simp [storeKnowledgeGraph, papers_storeConceptsLoop, papers_storeRelationshipsLoop]

/-- A paper row already present under the requested identifier makes
`processPaper` return true with no effects and an unchanged store,
provided the duplicate-check read does not itself fail. -/
theorem processPaper_mem_skip (env : Env) (db : Store) (id : Str)
    (ho : env.oracle.findFails id = false)
    (h : ∃ r ∈ db.papers, r.2.arxiv_id = id) :
    processPaper env db id = (true, db, []) := by
  rcases h with ⟨r0, hr0, hid⟩
  rcases hsome : db.papers.find? (fun r => r.2.arxiv_id == id) with _ | q
  · exfalso
    have := (List.find?_eq_none.mp hsome) r0 hr0
    simp [hid] at this
  · simp [processPaper, processPaperTry, findPaperByArxivId, ho, hsome]

/-! ## C6 -/

/-- C6: if the store already contains a paper with the given identifier
(and the duplicate-check read itself succeeds), `processPaper` returns
true immediately with no fetch, extraction, validation or store-write
effect and an unchanged store; consequently — given that fetching an id
yields a paper carrying that id — a second call for an id whose first
call returned true short-circuits the same way, creating no duplicate
rows. -/
theorem C6_idempotent_skip (env : Env) (db : Store) (id : Str)
    (ho : env.oracle.findFails id = false) :
    ((∃ r ∈ db.papers, r.2.arxiv_id = id) → processPaper env db id = (true, db, [])) ∧
    ((∀ i q, env.fetchPaper i = Except.ok q → q.arxiv_id = i) →
      ∀ b db1 effs, processPaper env db id = (b, db1, effs) → b = true →
        processPaper env db1 id = (true, db1, [])) := by
  refine ⟨processPaper_mem_skip env db id ho, ?_⟩
  intro hfetch b db1 effs hrun hb
  subst hb
  rcases hfind : db.papers.find? (fun r => r.2.arxiv_id == id) with _ | q
  · rcases hf : env.fetchPaper id with e | paper
    · simp [processPaper, processPaperTry, findPaperByArxivId, ho, hfind, hf] at hrun
    · by_cases hrel : isRelevantToGaussianSplatting paper
      · rcases hip : insertPaper env.oracle db paper with e | ins
        · simp [processPaper, processPaperTry, findPaperByArxivId, ho, hfind, hf, hrel,
            hip] at hrun
        · rcases hex : env.extractEntities paper with e | extraction
          · simp [processPaper, processPaperTry, findPaperByArxivId, ho, hfind, hf, hrel,
              hip, hex] at hrun
          · simp [processPaper, processPaperTry, findPaperByArxivId, ho, hfind, hf, hrel,
              hip, hex] at hrun
            obtain ⟨h1, h2⟩ := hrun
            subst h1
            apply processPaper_mem_skip env _ id ho
            refine ⟨(db.nextId, paper), ?_, hfetch id paper hf⟩
            rw [papers_storeKnowledgeGraph, papers_insertPaper env.oracle db paper ins hip]
            simp
      · simp [processPaper, processPaperTry, findPaperByArxivId, ho, hfind, hf,
          hrel] at hrun
  · simp [processPaper, processPaperTry, findPaperByArxivId, ho, hfind] at hrun
    obtain ⟨h1, h2⟩ := hrun
    subst h1
    apply processPaper_mem_skip env db id ho
    refine ⟨q, List.mem_of_find?_eq_some hfind, ?_⟩
    have := List.find?_some hfind
    simpa using this

/-- Oracle fixture: a healthy database, fetch succeeding only for the
seminal id, extraction returning an empty extraction. -/
def envC6 : Env :=
  { fetchPaper := fun i =>
      if i == "2308.04079".toList then Except.ok paperC3 else Except.error ()
    extractEntities := fun _ => Except.ok ⟨[], []⟩
    oracle := noFailOracle }

/-- Store fixture already holding the seminal paper as row 0. -/
def dbC6 : Store := ⟨1, [(0, paperC3)], [], [], []⟩

theorem envC6_fetch_contract : ∀ i q, envC6.fetchPaper i = Except.ok q → q.arxiv_id = i := by
  intro i q h
  simp only [envC6] at h
  split at h
  next hcond =>
    injection h with h2
    subst h2
    have hi := eq_of_beq hcond
    subst hi
    rfl
  next hcond => simp at h

/-- Witness for C6 on concrete inputs: a pre-populated store
short-circuits, and a second run after a successful first run
short-circuits on the store produced by the first. -/
theorem C6_idempotent_skip_witness :
    processPaper envC6 dbC6 "2308.04079".toList = (true, dbC6, []) ∧
    processPaper envC6 (processPaper envC6 emptyStore "2308.04079".toList).2.1
        "2308.04079".toList =
      (true, (processPaper envC6 emptyStore "2308.04079".toList).2.1, []) :=
  ⟨(C6_idempotent_skip envC6 dbC6 "2308.04079".toList rfl).1
      ⟨(0, paperC3), by simp [dbC6], rfl⟩,
    (C6_idempotent_skip envC6 emptyStore "2308.04079".toList rfl).2 envC6_fetch_contract
      (processPaper envC6 emptyStore "2308.04079".toList).1
      (processPaper envC6 emptyStore "2308.04079".toList).2.1
      (processPaper envC6 emptyStore "2308.04079".toList).2.2 rfl
      (by norm_num +decide [processPaper, processPaperTry, envC6, emptyStore,
        findPaperByArxivId, noFailOracle, insertPaper, isRelevantToGaussianSplatting,
        paperContent, paperC3, validateExtraction, conceptLoop, relationshipLoop,
        storeKnowledgeGraph, storeConceptsLoop, storeRelationshipsLoop])⟩

/-! ## C7 -/

/-- Oracle fixture whose fetch always fails, over a healthy database. -/
def envC7 : Env :=
  { fetchPaper := fun _ => Except.error ()
    extractEntities := fun _ => Except.ok ⟨[], []⟩
    oracle := noFailOracle }

/-- C7 counterexample: on a fetch failure — an unrecoverable per-paper
error in the claim's sense — the `try` body raises, but `processPaper`
itself catches the error and returns false instead of raising, so false
does not only mean "skipped as irrelevant" and the batch caller's
raise-conversion path is not what records the failure. -/
theorem C7_counterexample :
    processPaperTry envC7 emptyStore "2308.04079".toList =
      (Except.error (), emptyStore, [Effect.fetch "2308.04079".toList]) ∧
    processPaper envC7 emptyStore "2308.04079".toList =
      (false, emptyStore, [Effect.fetch "2308.04079".toList]) := by
  constructor <;> rfl

/-- C7 amended: `processPaper` returns true exactly when the
duplicate-check read succeeds and either the paper is already present
or the whole pipeline (fetch, relevance gate, paper insert, extraction)
succeeds; it returns false both when the relevance gate skips the paper
and when a database read/write, fetch or extraction error is raised —
the internal catch converts every such error into a false return, and
`processPaper` never propagates it. -/
theorem C7_return_contract (env : Env) (db : Store) (id : Str) :
    ((processPaper env db id).1 = true ↔
      env.oracle.findFails id = false ∧
        ((∃ r ∈ db.papers, r.2.arxiv_id = id) ∨
          ∃ paper, env.fetchPaper id = Except.ok paper ∧
            isRelevantToGaussianSplatting paper = true ∧
            (∃ ins, insertPaper env.oracle db paper = Except.ok ins) ∧
            ∃ ex, env.extractEntities paper = Except.ok ex)) ∧
    (∀ db1 effs, processPaperTry env db id = (Except.error (), db1, effs) →
      processPaper env db id = (false, db1, effs)) := by
  constructor
  · rcases ho : env.oracle.findFails id with _ | _
    · rcases hfind : db.papers.find? (fun r => r.2.arxiv_id == id) with _ | q
      · have hnone : ¬ ∃ r ∈ db.papers, r.2.arxiv_id = id := by
          rintro ⟨r0, hr0, hid⟩
          have := (List.find?_eq_none.mp hfind) r0 hr0
          simp [hid] at this
        rcases hf : env.fetchPaper id with e | paper
        · simp [processPaper, processPaperTry, findPaperByArxivId, ho, hfind, hf, hnone]
        · by_cases hrel : isRelevantToGaussianSplatting paper
          · rcases hip : insertPaper env.oracle db paper with e | ins
            · simp [processPaper, processPaperTry, findPaperByArxivId, ho, hfind, hf,
                hrel, hip, hnone]
            · rcases hex : env.extractEntities paper with e | extraction
              · simp [processPaper, processPaperTry, findPaperByArxivId, ho, hfind, hf,
                  hrel, hip, hex, hnone]
              · simp [processPaper, processPaperTry, findPaperByArxivId, ho, hfind, hf,
                  hrel, hip, hex, hnone]
                exact ⟨ins.1, ins.2, rfl⟩
          · simp [processPaper, processPaperTry, findPaperByArxivId, ho, hfind, hf,
              hrel, hnone]
      · have hmem : ∃ r ∈ db.papers, r.2.arxiv_id = id :=
          ⟨q, List.mem_of_find?_eq_some hfind, by simpa using List.find?_some hfind⟩
        simp [processPaper, processPaperTry, findPaperByArxivId, ho, hfind, hmem]
    · simp [processPaper, processPaperTry, findPaperByArxivId, ho]
  · intro db1 effs htry
    simp [processPaper, htry]

/-- Witness for C7 (amended) on a concrete input. -/
theorem C7_return_contract_witness :
    processPaper envC7 emptyStore "1234.00000".toList =
      (false, emptyStore, [Effect.fetch "1234.00000".toList]) :=
  (C7_return_contract envC7 emptyStore "1234.00000".toList).2 emptyStore
    [Effect.fetch "1234.00000".toList] rfl

/-! ## C8 -/

/-- One batch of `processPapersAtScale` (orchestrator.ts lines 197-210):
each paper is processed and its id appended to the processed or failed
list according to `processPaper`'s boolean result.  (The source
dispatches the batch concurrently and awaits all of it; the model is
the sequential linearization, which produces the same processed/failed
counts.) -/
def runBatch (env : Env) : List ArxivPaper → Store → List Str → List Str →
    Store × List Str × List Str
  | [], db, processed, failed => (db, processed, failed)
  | p :: rest, db, processed, failed =>
    let r := processPaper env db p.arxiv_id
    if r.1 then runBatch env rest r.2.1 (processed ++ [p.arxiv_id]) failed
    else runBatch env rest r.2.1 processed (failed ++ [p.arxiv_id])

/-- The running failure rate `failed.length / (processed.length +
failed.length)` (orchestrator.ts line 213).  With no outcomes yet
JavaScript yields NaN, whose comparison with 0.3 is false; rational
division by zero yields 0, giving the same 2000ms branch. -/
def failureRate (failedCount processedCount : ℕ) : ℚ :=
  (failedCount : ℚ) / ((processedCount : ℚ) + (failedCount : ℚ))

/-- The adaptive inter-batch delay (orchestrator.ts line 214). -/
def adaptiveDelay (failedCount processedCount : ℕ) : ℕ :=
  if failureRate failedCount processedCount > 0.3 then 5000 else 2000

/-- `processPapersAtScale` (orchestrator.ts lines 183-221): process in
batches of 5, and after each batch except the last record the adaptive
delay slept before the next batch.  Returns the final store, the
processed and failed id lists, and the trace of slept delays. -/
def processPapersAtScale (env : Env) (papers : List ArxivPaper) (db : Store)
    (processed failed : List Str) : Store × List Str × List Str × List ℕ :=
  if papers = [] then (db, processed, failed, [])
  else
    let r := runBatch env (papers.take 5) db processed failed
    if papers.length ≤ 5 then (r.1, r.2.1, r.2.2, [])
    else
      let rest := processPapersAtScale env (papers.drop 5) r.1 r.2.1 r.2.2
      (rest.1, rest.2.1, rest.2.2.1, adaptiveDelay r.2.2.length r.2.1.length :: rest.2.2.2)
termination_by papers.length
decreasing_by
  cases papers with
  | nil => simp at *
  | cons p rest => simp [List.length_drop]; omega

/-- C8: after each batch except the last the orchestrator sleeps
5000ms when the running failure rate failed/(processed+failed) exceeds
0.3 and 2000ms otherwise; with 4 processed and 2 failed the delay is
5000ms, with 8 processed and 1 failed it is 2000ms. -/
theorem C8_adaptive_delay :
    (∀ f s : ℕ, adaptiveDelay f s =
      if (0.3 : ℚ) < (f : ℚ) / ((s : ℚ) + (f : ℚ)) then 5000 else 2000) ∧
    (∀ (env : Env) (papers : List ArxivPaper) (db : Store) (processed failed : List Str),
      papers.length ≤ 5 →
      (processPapersAtScale env papers db processed failed).2.2.2 = []) ∧
    (∀ (env : Env) (papers : List ArxivPaper) (db : Store) (processed failed : List Str),
      5 < papers.length →
      (processPapersAtScale env papers db processed failed).2.2.2 =
        adaptiveDelay (runBatch env (papers.take 5) db processed failed).2.2.length
            (runBatch env (papers.take 5) db processed failed).2.1.length ::
          (processPapersAtScale env (papers.drop 5)
            (runBatch env (papers.take 5) db processed failed).1
            (runBatch env (papers.take 5) db processed failed).2.1
            (runBatch env (papers.take 5) db processed failed).2.2).2.2.2) ∧
    adaptiveDelay 2 4 = 5000 ∧ adaptiveDelay 1 8 = 2000 := by
  refine ⟨fun f s => rfl, ?_, ?_, ?_, ?_⟩
  · intro env papers db processed failed h
    rw [processPapersAtScale]
    by_cases hnil : papers = []
    · simp [hnil]
    · simp [hnil, h]
  · intro env papers db processed failed h
    have hnil : papers ≠ [] := by
      intro he; subst he; simp at h
    rw [processPapersAtScale]
    simp [hnil, Nat.not_le.mpr h]
  · norm_num [adaptiveDelay, failureRate]
  · norm_num [adaptiveDelay, failureRate]

/-- Batch fixture: six candidate papers. -/
def papersC8 : List ArxivPaper :=
  [⟨"p1".toList, [], []⟩, ⟨"p2".toList, [], []⟩, ⟨"p3".toList, [], []⟩,
    ⟨"p4".toList, [], []⟩, ⟨"p5".toList, [], []⟩, ⟨"p6".toList, [], []⟩]

/-- Witness for C8 on concrete inputs: a single batch records no delay,
and a six-paper run records the adaptive delay computed from the first
batch's running counts. -/
theorem C8_adaptive_delay_witness :
    (processPapersAtScale envC7 [⟨"p1".toList, [], []⟩] emptyStore [] []).2.2.2 = [] ∧
    (processPapersAtScale envC7 papersC8 emptyStore [] []).2.2.2 =
      adaptiveDelay (runBatch envC7 (papersC8.take 5) emptyStore [] []).2.2.length
          (runBatch envC7 (papersC8.take 5) emptyStore [] []).2.1.length ::
        (processPapersAtScale envC7 (papersC8.drop 5)
          (runBatch envC7 (papersC8.take 5) emptyStore [] []).1
          (runBatch envC7 (papersC8.take 5) emptyStore [] []).2.1
          (runBatch envC7 (papersC8.take 5) emptyStore [] []).2.2).2.2.2 :=
  ⟨C8_adaptive_delay.2.1 envC7 [⟨"p1".toList, [], []⟩] emptyStore [] [] (by norm_num),
    C8_adaptive_delay.2.2.1 envC7 papersC8 emptyStore [] [] (by norm_num [papersC8])⟩

/-! ## C9 -/

/-- The lowercased title+abstract of a discovery candidate. -/
def arxivContent (p : ArxivPaper) : Str := jsToLower (p.title ++ ' ' :: p.abstract)

/-- `calculateRelevanceScore` (orchestrator.ts lines 326-336), mirroring
the sequential `score +=` statements. -/
def calculateRelevanceScore (p : ArxivPaper) : ℕ :=
  let content := arxivContent p
  let score := 0
  let score := score + (if jsIncludes content "gaussian splatting".toList then 3 else 0)
  let score := score + (if jsIncludes content "3dgs".toList then 2 else 0)
  let score := score + (if jsIncludes content "radiance field".toList then 2 else 0)
  score + (if jsIncludes content "real-time".toList then 1 else 0)

/-- The descending-score comparison realized by the comparator
`(a, b) => score(b) - score(a)`. -/
def scoreGE (a b : ArxivPaper) : Prop :=
  calculateRelevanceScore b ≤ calculateRelevanceScore a

instance : DecidableRel scoreGE := fun a b =>
  inferInstanceAs (Decidable (calculateRelevanceScore b ≤ calculateRelevanceScore a))

instance : IsTotal ArxivPaper scoreGE := ⟨fun a b => le_total _ _⟩

instance : IsTrans ArxivPaper scoreGE := ⟨fun a b c hab hbc => le_trans hbc hab⟩

/-- `prioritizePapersByRelevance` (orchestrator.ts lines 320-324):
JavaScript's `Array.prototype.sort` is stable, and a stable sort under a
total preorder is unique, so insertion sort under `scoreGE` realizes
it; then truncate to `limit`. -/
def prioritizePapersByRelevance (papers : List ArxivPaper) (limit : ℕ) : List ArxivPaper :=
  (List.insertionSort scoreGE papers).take limit

theorem filter_score_orderedInsert (s : ℕ) (a : ArxivPaper) (l : List ArxivPaper) :
    (List.orderedInsert scoreGE a l).filter (fun p => calculateRelevanceScore p == s) =
      if calculateRelevanceScore a = s then
        a :: l.filter (fun p => calculateRelevanceScore p == s)
      else l.filter (fun p => calculateRelevanceScore p == s) := by
  induction l with
  | nil =>
    by_cases ha : calculateRelevanceScore a = s <;>
      simp [List.orderedInsert, List.filter_cons, ha]
  | cons b t ih =>
    by_cases hr : scoreGE a b
    · rw [List.orderedInsert, if_pos hr]
      by_cases ha : calculateRelevanceScore a = s <;> simp [List.filter_cons, ha]
    · rw [List.orderedInsert, if_neg hr]
      have hba : calculateRelevanceScore a < calculateRelevanceScore b := by
        simpa [scoreGE, not_le] using hr
      by_cases ha : calculateRelevanceScore a = s
      · have hb : ¬ calculateRelevanceScore b = s := by omega
        simp [List.filter_cons, ha, hb, ih]
      · simp [List.filter_cons, ha, ih]

theorem filter_score_insertionSort (s : ℕ) (l : List ArxivPaper) :
    (List.insertionSort scoreGE l).filter (fun p => calculateRelevanceScore p == s) =
      l.filter (fun p => calculateRelevanceScore p == s) := by
  induction l with
  | nil => rfl
  | cons a t ih =>
    rw [List.insertionSort, filter_score_orderedInsert, ih]
    by_cases ha : calculateRelevanceScore a = s <;> simp [List.filter_cons, ha]

/-- Candidate containing "gaussian splatting" and "real-time". -/
def paperC9a : ArxivPaper :=
  ⟨"a1".toList, "Real-Time Gaussian Splatting".toList,
    "fast high quality rendering".toList⟩

/-- Candidate containing only "3dgs". -/
def paperC9b : ArxivPaper :=
  ⟨"b2".toList, "Compressing 3DGS models".toList, "compact storage".toList⟩

/-- C9: a candidate's relevance score adds 3 for "gaussian splatting",
2 for "3dgs", 2 for "radiance field" and 1 for "real-time"
(case-insensitive substring checks on title+abstract); prioritization
sorts descending by score with ties keeping input order (stable sort)
and truncates to the limit; the fixture containing "gaussian splatting"
and "real-time" scores 4 and is placed ahead of the fixture containing
only "3dgs", which scores 2. -/
theorem C9_prioritization :
    (∀ p : ArxivPaper, calculateRelevanceScore p =
      (if jsIncludes (arxivContent p) "gaussian splatting".toList then 3 else 0) +
      (if jsIncludes (arxivContent p) "3dgs".toList then 2 else 0) +
      (if jsIncludes (arxivContent p) "radiance field".toList then 2 else 0) +
      (if jsIncludes (arxivContent p) "real-time".toList then 1 else 0)) ∧
    (∀ (papers : List ArxivPaper) (limit : ℕ), ∃ sorted : List ArxivPaper,
      sorted.Perm papers ∧
      sorted.Pairwise (fun a b => calculateRelevanceScore b ≤ calculateRelevanceScore a) ∧
      (∀ s : ℕ, sorted.filter (fun p => calculateRelevanceScore p == s) =
        papers.filter (fun p => calculateRelevanceScore p == s)) ∧
      prioritizePapersByRelevance papers limit = sorted.take limit) ∧
    calculateRelevanceScore paperC9a = 4 ∧
    calculateRelevanceScore paperC9b = 2 ∧
    prioritizePapersByRelevance [paperC9b, paperC9a] 2 = [paperC9a, paperC9b] := by
  refine ⟨fun p => by simp [calculateRelevanceScore], fun papers limit =>
    ⟨List.insertionSort scoreGE papers, List.perm_insertionSort scoreGE papers,
      List.sorted_insertionSort scoreGE papers,
      fun s => filter_score_insertionSort s papers, rfl⟩,
    by decide, by decide, by decide⟩

/-! ## C10 -/

theorem mem_storeConceptsLoop (o : DbOracle) (pid : ℕ) :
    ∀ (cs : List Concept) (db : Store) (e : Effect),
      e ∈ (storeConceptsLoop o pid cs db).2 →
      ∃ c ∈ cs, (0.7 : ℚ) ≤ c.confidence ∧
        (e = Effect.upsertConcept c ∨
          ∃ cid, e = Effect.linkPaperConcept pid c cid c.confidence) := by
  intro cs
  induction cs with
  | nil => intro db e he; simp [storeConceptsLoop] at he
  | cons c rest ih =>
    intro db e he
    by_cases h : (0.7 : ℚ) ≤ c.confidence
    · rcases hic : insertConcept o db c with err | ⟨cid, db1⟩
      · simp only [storeConceptsLoop, if_pos h, hic, List.mem_cons] at he
        rcases he with rfl | he
        · exact ⟨c, List.mem_cons_self c rest, h, Or.inl rfl⟩
        · rcases ih _ e he with ⟨c', hc', hconf, hor⟩
          exact ⟨c', List.mem_cons_of_mem c hc', hconf, hor⟩
      · rcases hlk : linkPaperConcept o db1 pid cid "mentions".toList c.confidence
            with err | db2
        · simp only [storeConceptsLoop, if_pos h, hic, hlk, List.mem_cons] at he
          rcases he with rfl | rfl | he
          · exact ⟨c, List.mem_cons_self c rest, h, Or.inl rfl⟩
          · exact ⟨c, List.mem_cons_self c rest, h, Or.inr ⟨cid, rfl⟩⟩
          · rcases ih _ e he with ⟨c', hc', hconf, hor⟩
            exact ⟨c', List.mem_cons_of_mem c hc', hconf, hor⟩
        · simp only [storeConceptsLoop, if_pos h, hic, hlk, List.mem_cons] at he
          rcases he with rfl | rfl | he
          · exact ⟨c, List.mem_cons_self c rest, h, Or.inl rfl⟩
          · exact ⟨c, List.mem_cons_self c rest, h, Or.inr ⟨cid, rfl⟩⟩
          · rcases ih _ e he with ⟨c', hc', hconf, hor⟩
            exact ⟨c', List.mem_cons_of_mem c hc', hconf, hor⟩
    · simp only [storeConceptsLoop, if_neg h] at he
      rcases ih _ e he with ⟨c', hc', hconf, hor⟩
      exact ⟨c', List.mem_cons_of_mem c hc', hconf, hor⟩

theorem mem_storeRelationshipsLoop (o : DbOracle) (pid : ℕ) :
    ∀ (rs : List Relationship) (db : Store) (e : Effect),
      e ∈ (storeRelationshipsLoop o pid rs db).2 →
      ∃ r ∈ rs, (0.7 : ℚ) ≤ r.confidence ∧ e = Effect.insertRelationshipRow pid r := by
  intro rs
  induction rs with
  | nil => intro db e he; simp [storeRelationshipsLoop] at he
  | cons r rest ih =>
    intro db e he
    by_cases h : (0.7 : ℚ) ≤ r.confidence
    · rcases hir : insertRelationship o db pid r with err | db1
      · simp only [storeRelationshipsLoop, if_pos h, hir, List.mem_cons] at he
        rcases he with rfl | he
        · exact ⟨r, List.mem_cons_self r rest, h, rfl⟩
        · rcases ih _ e he with ⟨r', hr', hconf, hor⟩
          exact ⟨r', List.mem_cons_of_mem r hr', hconf, hor⟩
      · simp only [storeRelationshipsLoop, if_pos h, hir, List.mem_cons] at he
        rcases he with rfl | he
        · exact ⟨r, List.mem_cons_self r rest, h, rfl⟩
        · rcases ih _ e he with ⟨r', hr', hconf, hor⟩
          exact ⟨r', List.mem_cons_of_mem r hr', hconf, hor⟩
    · simp only [storeRelationshipsLoop, if_neg h] at he
      rcases ih _ e he with ⟨r', hr', hconf, hor⟩
      exact ⟨r', List.mem_cons_of_mem r hr', hconf, hor⟩

/-- Validated-but-unstored fixture concept (confidence 0.5). -/
def conceptC10 : Concept :=
  ⟨"Gaussian Splatting".toList, "method".toList, "core method".toList, 0.5⟩

/-- Validated-but-unstored fixture relationship (confidence 0.6). -/
def relC10 : Relationship :=
  ⟨"uses".toList, "gaussian splatting".toList,
    "real-time radiance field rendering".toList, 0.6⟩

/-- C10: `storeKnowledgeGraph` performs no concept upsert, no
paper-concept link and no relationship insert for an entity whose
confidence is below 0.7; this floor is stricter than the validator's
0.4/0.5 floors, so a concept of confidence 0.5 and a relationship of
confidence 0.6 that both pass validation are silently dropped at the
storage step. -/
theorem C10_storage_floor :
    (∀ (o : DbOracle) (db : Store) (pid : ℕ) (ex : ExtractionResult) (c : Concept)
        (pid2 cid : ℕ) (q : ℚ) (e : Effect), c.confidence < 0.7 →
      e ∈ (storeKnowledgeGraph o db pid ex).2 →
      e ≠ Effect.upsertConcept c ∧ e ≠ Effect.linkPaperConcept pid2 c cid q) ∧
    (∀ (o : DbOracle) (db : Store) (pid : ℕ) (ex : ExtractionResult) (r : Relationship)
        (pid2 : ℕ) (e : Effect), r.confidence < 0.7 →
      e ∈ (storeKnowledgeGraph o db pid ex).2 →
      e ≠ Effect.insertRelationshipRow pid2 r) ∧
    validateConcept conceptC10 paperC3 = true ∧
    (0.4 : ℚ) ≤ conceptC10.confidence ∧ conceptC10.confidence < 0.7 ∧
    validateRelationship relC10 paperC3 = true ∧
    (0.5 : ℚ) ≤ relC10.confidence ∧ relC10.confidence < 0.7 ∧
    (storeKnowledgeGraph noFailOracle emptyStore 0 ⟨[conceptC10], [relC10]⟩).2 = [] := by
  refine ⟨?_, ?_, ?_, by norm_num [conceptC10], by norm_num [conceptC10], ?_,
    by norm_num [relC10], by norm_num [relC10], ?_⟩
  · intro o db pid ex c pid2 cid q e hc he
    have hsplit := List.mem_append.mp (by simpa [storeKnowledgeGraph] using he)
    rcases hsplit with h1 | h2
    · rcases mem_storeConceptsLoop o pid ex.concepts db e h1 with ⟨c', _, hconf, hor⟩
      rcases hor with rfl | ⟨cid', rfl⟩
      · constructor
        · intro heq
          rcases Effect.upsertConcept.inj heq with rfl
          exact absurd hconf (not_le.mpr hc)
        · simp
      · constructor
        · simp
        · intro heq
          rcases Effect.linkPaperConcept.inj heq with ⟨rfl, rfl, rfl, rfl⟩
          exact absurd hconf (not_le.mpr hc)
    · rcases mem_storeRelationshipsLoop o pid ex.relationships _ e h2
        with ⟨r', _, hconf, rfl⟩
      constructor <;> simp
  · intro o db pid ex r pid2 e hr he
    have hsplit := List.mem_append.mp (by simpa [storeKnowledgeGraph] using he)
    rcases hsplit with h1 | h2
    · rcases mem_storeConceptsLoop o pid ex.concepts db e h1 with ⟨c', _, hconf, hor⟩
      rcases hor with rfl | ⟨cid', rfl⟩ <;> simp
    · rcases mem_storeRelationshipsLoop o pid ex.relationships _ e h2
        with ⟨r', _, hconf, rfl⟩
      intro heq
      rcases Effect.insertRelationshipRow.inj heq with ⟨rfl, rfl⟩
      exact absurd hconf (not_le.mpr hr)
  · norm_num +decide [validateConcept, isConceptRelevant, conceptC10, paperC3, paperContent]
  · norm_num +decide [validateRelationship, isRelationshipSensible, relC10, paperC3,
      paperContent]
  · norm_num [storeKnowledgeGraph, storeConceptsLoop, storeRelationshipsLoop, conceptC10,
      relC10]

/-- Witness for C10 on concrete inputs: the effects of storing a
high-confidence extraction never mention the low-confidence
fixtures. -/
theorem C10_storage_floor_witness :
    (Effect.upsertConcept conceptC3hi ≠ Effect.upsertConcept conceptC10 ∧
      Effect.upsertConcept conceptC3hi ≠ Effect.linkPaperConcept 0 conceptC10 0 0.5) ∧
    Effect.upsertConcept conceptC3hi ≠ Effect.insertRelationshipRow 0 relC10 :=
  ⟨C10_storage_floor.1 noFailOracle emptyStore 0 ⟨[conceptC3hi], []⟩ conceptC10
      0 0 0.5 (Effect.upsertConcept conceptC3hi)
      (by norm_num [conceptC10])
      (by norm_num [storeKnowledgeGraph, storeConceptsLoop, storeRelationshipsLoop,
        insertConcept, linkPaperConcept, noFailOracle, emptyStore, conceptC3hi]),
    C10_storage_floor.2.1 noFailOracle emptyStore 0 ⟨[conceptC3hi], []⟩ relC10
      0 (Effect.upsertConcept conceptC3hi)
      (by norm_num [relC10])
      (by norm_num [storeKnowledgeGraph, storeConceptsLoop, storeRelationshipsLoop,
        insertConcept, linkPaperConcept, noFailOracle, emptyStore, conceptC3hi])⟩

end KG
